import Mathlib

/-!
Shallow embedding of the Open-AutoGLM-WebUI core components, translated from
the Python sources:

* src/phone_agent/model/client.py  (ModelClient._parse_response)
* src/phone_agent/adb/scanner.py   (get_local_ip, get_arp_ips, check_port, scan_network)
* src/web_server.py                (websocket_endpoint)

Python strings are modeled as List Char so that every Python string
primitive used by the code (strip, in, find, split-at-first, replace,
startswith, split-on-dot, join) is an explicit, executable Lean function
with the same semantics on the inputs the code handles. Whitespace is the
ASCII whitespace set that Python str.strip removes.
-/

/-- ASCII whitespace, the characters Python str.strip removes on ASCII text:
space, tab, newline, carriage return, vertical tab, form feed. -/
def isSpace (c : Char) : Bool :=
  c = ' ' || c = '\t' || c = '\n' || c = '\r' || c = '\x0b' || c = '\x0c'

/-- Python s.strip(): drop leading and trailing whitespace. -/
def pyStrip (l : List Char) : List Char :=
  ((l.dropWhile isSpace).reverse.dropWhile isSpace).reverse

/-- Python s.find(pat): index of the first occurrence of pat in l, none when
absent (Python returns -1). The empty pattern is found at index 0. -/
def findSub (pat : List Char) : List Char → Option Nat
  | [] => if pat.isEmpty then some 0 else none
  | c :: rest =>
    if pat.isPrefixOf (c :: rest) then some 0
    else (findSub pat rest).map (fun n => n + 1)

/-- Python pat in s. -/
def containsSub (pat l : List Char) : Bool :=
  (findSub pat l).isSome

/-- Fuel-driven worker for pyReplace; fuel is always called with the length
of the list, which bounds the number of steps for a nonempty pattern. -/
def replaceFuel (pat repl : List Char) : Nat → List Char → List Char
  | 0, l => l
  | _ + 1, [] => []
  | fuel + 1, c :: rest =>
    if pat.isPrefixOf (c :: rest) then
      repl ++ replaceFuel pat repl fuel ((c :: rest).drop pat.length)
    else
      c :: replaceFuel pat repl fuel rest

/-- Python s.replace(pat, repl) for a nonempty pattern: replace every
non-overlapping occurrence, scanning left to right. The code only ever
replaces the fixed nonempty tag strings, so the empty-pattern case
(where Python would interleave repl at every boundary) returns l unchanged. -/
def pyReplace (l pat repl : List Char) : List Char :=
  if pat.isEmpty then l else replaceFuel pat repl l.length l

/-- Python s.split(sep) for a single-character separator, as used for
splitting an IPv4 address on the dot. -/
def splitOnChar (sep : Char) : List Char → List (List Char)
  | [] => [[]]
  | c :: rest =>
    if c = sep then [] :: splitOnChar sep rest
    else
      match splitOnChar sep rest with
      | [] => [[c]]
      | h :: r => (c :: h) :: r

/-- Decidable check that a list has no leading and no trailing whitespace
character. -/
def edgeTrimmed (l : List Char) : Bool :=
  (match l.head? with | some ch => !(isSpace ch) | none => true) &&
  (match l.getLast? with | some ch => !(isSpace ch) | none => true)

/-! ### Response decoder (ModelClient._parse_response, client.py lines 82-129) -/

def ansOpen : List Char := "<answer>".data

def ansClose : List Char := "</answer>".data

def thinkOpen : List Char := "<think>".data

def thinkClose : List Char := "</think>".data

/-- The three action-start tokens of the case-3 heuristic. -/
def actionMarkers : List (List Char) :=
  ["\x7baction=".data, "do(".data, "finish(".data]

/-- first_marker_pos of client.py lines 111-116: the smallest index at which
any action marker occurs, defaulting to the length of the content. -/
def firstMarkerPos (c : List Char) : Nat :=
  actionMarkers.foldl
    (fun acc m =>
      match findSub m c with
      | some p => if p < acc then p else acc
      | none => acc)
    c.length

/-- Body of ModelClient._parse_response after the initial content.strip(),
client.py lines 94-129, on an already-stripped input. -/
def parseCore (c : List Char) : List Char × List Char :=
  match findSub ansOpen c with
  | some i =>
    (pyStrip (pyReplace (pyReplace (c.take i) thinkOpen []) thinkClose []),
     pyStrip (pyReplace (c.drop (i + ansOpen.length)) ansClose []))
  | none =>
    match containsSub thinkOpen c, findSub thinkClose c with
    | true, some j =>
      (pyStrip (pyReplace (c.take j) thinkOpen []),
       pyStrip (c.drop (j + thinkClose.length)))
    | _, _ =>
      if firstMarkerPos c < c.length then
        (pyStrip (c.take (firstMarkerPos c)), pyStrip (c.drop (firstMarkerPos c)))
      else if ("\x7b".data).isPrefixOf c || ("do(".data).isPrefixOf c
          || ("finish(".data).isPrefixOf c then
        ([], c)
      else
        (c, [])

/-- ModelClient._parse_response: strip the raw content, then apply the
layered strategy. Returns the (thinking, action) pair. -/
def parseResponse (content : List Char) : List Char × List Char :=
  parseCore (pyStrip content)

/-! ### Device discovery engine (scanner.py)

The socket and subprocess layer is abstracted as an environment: the result
of the local-address socket trick, the list of IPv4-shaped strings the regex
extracts from the neighbor-cache output, and the connect_ex result per
address. An Except.error models a raised exception at that call site; the
Python code catches each of them, which is what the definitions mirror. -/

structure ScanEnv where
  localIp : Except Unit (List Char)
  arpFound : Except Unit (List (List Char))
  connect : List Char → Except Unit Int

/-- get_local_ip, scanner.py lines 11-21: the socket trick result, or the
loopback address when the socket layer raises. -/
def getLocalIp (e : ScanEnv) : List Char :=
  match e.localIp with
  | Except.ok ip => ip
  | Except.error _ => "127.0.0.1".data

/-- The subnet prefix of scanner.py lines 35 and 99: join the first three
dot-separated fields of the local address with dots (no trailing dot). -/
def subnetPrefix (ip : List Char) : List Char :=
  List.intercalate ['.'] ((splitOnChar '.' ip).dropLast)

/-- get_arp_ips, scanner.py lines 24-45: on a neighbor-cache query failure
return the empty list; otherwise keep the extracted addresses whose text
starts with the subnet prefix and that differ from the local address.
The Python set is modeled as a list; membership is the observable. -/
def getArpIps (e : ScanEnv) (localIp : List Char) : List (List Char) :=
  match e.arpFound with
  | Except.error _ => []
  | Except.ok found =>
    found.filter (fun ip => (subnetPrefix localIp).isPrefixOf ip && ip != localIp)

/-- check_port, scanner.py lines 48-60: the address when connect_ex yields
zero, none on a nonzero code or a raised exception. -/
def checkPort (e : ScanEnv) (ip : List Char) : Option (List Char) :=
  match e.connect ip with
  | Except.ok r => if r = 0 then some ip else none
  | Except.error _ => none

/-- One slow-path host address: the f-string subnet.i of scanner.py line 100. -/
def hostAddr (subnet : List Char) (i : Nat) : List Char :=
  subnet ++ '.' :: Nat.toDigits 10 i

/-- Result of one scan invocation together with the list of addresses whose
port was probed, in probe-submission order. -/
structure ScanTrace where
  result : List (List Char)
  probed : List (List Char)
deriving DecidableEq

/-- scan_network, scanner.py lines 63-112. Loopback local address returns
empty at once. Fast path probes the neighbor-cache candidates; a nonempty
success set is returned immediately. Otherwise the slow path probes the
/24 host addresses 1..254 minus the fast-path candidates and the local
address. The thread pool joins every future, so a batch is the filterMap of
the probe over the submitted addresses, in submission order. -/
def scanNetwork (e : ScanEnv) : ScanTrace :=
  let localIp := getLocalIp e
  if localIp = "127.0.0.1".data then ⟨[], []⟩
  else
    let arpIps := getArpIps e localIp
    let fastFound := if arpIps.isEmpty then [] else arpIps.filterMap (checkPort e)
    if fastFound ≠ [] then ⟨fastFound, arpIps⟩
    else
      let subnet := subnetPrefix localIp
      let ipsToScan :=
        ((List.range' 1 254).map (hostAddr subnet)).filter
          (fun ip => !(arpIps.contains ip) && ip != localIp)
      ⟨ipsToScan.filterMap (checkPort e), arpIps ++ ipsToScan⟩

/-- The first three dot-separated octet fields of an address; two addresses
are on the same /24 subnet exactly when these agree. -/
def octets3 (ip : List Char) : List (List Char) :=
  (splitOnChar '.' ip).take 3

/-! ### Orchestration session (web_server.py, websocket_endpoint lines 97-147)

A step executor is modeled as the finite script of outcomes its successive
step calls produce: Except.ok is a returned StepResult, Except.error is a
raised exception whose payload is str(e). The session trace records, in
order, every step invocation (with whether the task text was passed) and
every event sent over the connection. An exhausted script ends the
observation window. -/

structure StepResult where
  finished : Bool
  message : Option String
deriving DecidableEq

/-- Events sent with websocket.send_json. -/
inductive Event where
  | info : String → Event
  | step : StepResult → Event
  | finish : String → Event
  | error : String → Event
deriving DecidableEq

/-- One observable step of the session loop: a call into the step executor,
or an event emitted to the connection. -/
inductive SessAction where
  | callStep : Bool → SessAction
  | emit : Event → SessAction
deriving DecidableEq

/-- The finish-event payload of web_server.py line 140: result.message or
a default. Python or-falsiness makes both a missing and an empty message
fall back to the default text. -/
def finishMsg (r : StepResult) : String :=
  match r.message with
  | some m => if m = "" then "Task completed" else m
  | none => "Task completed"

/-- The stepping loop of web_server.py lines 133-140, wrapped in the
try block whose except sends a single error event (line 143): call the
executor, emit the step event, stop with a finish event once finished is
true, stop with an error event when the call raises. -/
def stepLoop : Bool → List (Except String StepResult) → List SessAction
  | _, [] => []
  | withTask, Except.error msg :: _ =>
    [SessAction.callStep withTask, SessAction.emit (Event.error msg)]
  | withTask, Except.ok r :: rest =>
    SessAction.callStep withTask :: SessAction.emit (Event.step r) ::
      (if r.finished then [SessAction.emit (Event.finish (finishMsg r))]
       else stepLoop false rest)

/-- One session: the info acknowledgement of line 124 followed by the
stepping loop; the first call passes the task text, later calls do not. -/
def sessionTrace (script : List (Except String StepResult)) : List SessAction :=
  SessAction.emit (Event.info "Starting task...") :: stepLoop true script

/-- Whether the session hit the except branch, in which case the handler
next evaluates traceback.print_exc() on line 144; the traceback module is
never imported in web_server.py, so a NameError is raised there and the
connection handler dies instead of looping back to receive_json. -/
def stepLoopErrored : List (Except String StepResult) → Bool
  | [] => false
  | Except.error _ :: _ => true
  | Except.ok r :: rest => if r.finished then false else stepLoopErrored rest

/-- The per-connection receive loop of web_server.py lines 101-145: each
received task message runs one session, tagged with its session index;
after a session that hit the except branch the unimported traceback module
raises NameError and no further message is processed on this connection. -/
def connTrace (k : Nat) : List (List (Except String StepResult)) → List (Nat × SessAction)
  | [] => []
  | s :: rest =>
    (sessionTrace s).map (fun a => (k, a)) ++
      (if stepLoopErrored s then [] else connTrace (k + 1) rest)

/-! ### Concrete inputs used by witnesses and counterexamples -/

/-- The delimited spec example for the decoder. -/
def exDelimited : List Char := "<think>foo</think><answer>do(tap,1,2)</answer>".data

/-- The pure-rationale spec example for the decoder. -/
def exRationale : List Char := "Nothing to do here.".data

/-- A scan environment whose neighbor cache holds one same-subnet address
and whose every probe succeeds. -/
def envScanFast : ScanEnv :=
  ⟨Except.ok "192.168.1.2".data, Except.ok ["192.168.1.3".data], fun _ => Except.ok 0⟩

/-- A scan environment whose neighbor cache holds one address on the same
/24 subnet as the local address. -/
def envArpOk : ScanEnv :=
  ⟨Except.ok "10.0.1.1".data, Except.ok ["10.0.1.9".data], fun _ => Except.error ()⟩

/-- A scan environment whose neighbor cache holds an address on a different
/24 subnet whose text nevertheless extends the local subnet prefix. -/
def envArpWide : ScanEnv :=
  ⟨Except.ok "10.0.1.1".data, Except.ok ["10.0.10.5".data], fun _ => Except.error ()⟩

/-- A scan environment with an empty neighbor cache where only the address
10.0.0.7 accepts the connection. -/
def envSlowOne : ScanEnv :=
  ⟨Except.ok "10.0.0.2".data, Except.ok [],
   fun ip => if ip = "10.0.0.7".data then Except.ok 0 else Except.ok 1⟩

/-- A scan environment in which every platform and socket call raises. -/
def envAllFail : ScanEnv :=
  ⟨Except.error (), Except.error (), fun _ => Except.error ()⟩

/-- A step executor whose first call raises. -/
def errScript : List (Except String StepResult) := [Except.error "boom"]

/-- A step executor whose first call returns a finished result. -/
def okScript : List (Except String StepResult) := [Except.ok ⟨true, some "done"⟩]

/-! ### Helper lemmas -/

theorem dropWhile_head?_not (p : Char → Bool) (l : List Char) (ch : Char)
    (h : (List.dropWhile p l).head? = some ch) : p ch = false := by
  induction l with
  | nil => simp [List.dropWhile] at h
  | cons c t ih =>
    by_cases hc : p c
    · simp [List.dropWhile, hc] at h
      exact ih h
    · simp [List.dropWhile, hc] at h
      subst h
      simpa using hc

theorem dropWhile_getLast?_eq (p : Char → Bool) (l : List Char) (ch : Char)
    (h : (List.dropWhile p l).getLast? = some ch) : l.getLast? = some ch := by
  induction l with
  | nil => simp [List.dropWhile] at h
  | cons c t ih =>
    by_cases hc : p c
    · simp only [List.dropWhile, hc] at h
      have ht := ih h
      cases t with
      | nil => simp at ht
      | cons x xs => rw [List.getLast?_cons_cons]; exact ht
    · simpa [List.dropWhile, hc] using h

theorem pyStrip_edgeTrimmed (l : List Char) : edgeTrimmed (pyStrip l) = true := by
  unfold edgeTrimmed pyStrip
  apply Bool.and_eq_true_iff.mpr
  constructor
  · cases hh : (((l.dropWhile isSpace).reverse.dropWhile isSpace).reverse).head? with
    | none => rfl
    | some ch =>
      rw [List.head?_reverse] at hh
      have h2 := dropWhile_getLast?_eq isSpace _ _ hh
      rw [List.getLast?_reverse] at h2
      have h3 := dropWhile_head?_not isSpace _ _ h2
      simp [h3]
  · cases hh : (((l.dropWhile isSpace).reverse.dropWhile isSpace).reverse).getLast? with
    | none => rfl
    | some ch =>
      rw [List.getLast?_reverse] at hh
      have h3 := dropWhile_head?_not isSpace _ _ hh
      simp [h3]

theorem findSub_isSome_iff_occurs (pat l : List Char) :
    (findSub pat l).isSome = true ↔ pat <:+: l := by
  induction l with
  | nil =>
    simp only [findSub, List.infix_nil]
    by_cases hp : pat.isEmpty
    · simp [hp, List.isEmpty_iff.mp hp]
    · rw [if_neg hp]
      exact iff_of_false (by simp) (fun h => hp (List.isEmpty_iff.mpr h))
  | cons c t ih =>
    simp only [findSub]
    by_cases hpre : pat.isPrefixOf (c :: t)
    · rw [if_pos hpre]
      simp only [Option.isSome_some, true_iff]
      exact (List.isPrefixOf_iff_prefix.mp hpre).isInfix
    · rw [if_neg hpre]
      have hmap : (Option.map (fun n => n + 1) (findSub pat t)).isSome
          = (findSub pat t).isSome := by
        cases findSub pat t <;> rfl
      rw [hmap]
      rw [List.infix_cons_iff]
      constructor
      · intro h
        exact Or.inr (ih.mp h)
      · rintro (h | h)
        · exact absurd (List.isPrefixOf_iff_prefix.mpr h) (by simpa using hpre)
        · exact ih.mpr h

theorem isPrefixOf_containsSub (pat l : List Char) (h : pat.isPrefixOf l = true) :
    containsSub pat l = true := by
  unfold containsSub
  exact (findSub_isSome_iff_occurs pat l).mpr (List.isPrefixOf_iff_prefix.mp h).isInfix

theorem infix_dropWhile (pat l : List Char) (hne : pat ≠ [])
    (hns : ∀ ch ∈ pat, isSpace ch = false) (h : pat <:+: l) :
    pat <:+: l.dropWhile isSpace := by
  induction l with
  | nil => exact absurd (List.infix_nil.mp h) hne
  | cons c t ih =>
    by_cases hc : isSpace c
    · rw [List.dropWhile_cons_of_pos hc]
      rcases List.infix_cons_iff.mp h with hpre | hinf
      · cases pat with
        | nil => exact absurd rfl hne
        | cons p ps =>
          have hp : p = c := (List.cons_prefix_cons.mp hpre).1
          have := hns p (by simp)
          rw [hp] at this
          rw [this] at hc
          exact absurd hc (by simp)
      · exact ih hinf
    · rwa [List.dropWhile_cons_of_neg hc]

theorem infix_pyStrip (pat l : List Char) (hne : pat ≠ [])
    (hns : ∀ ch ∈ pat, isSpace ch = false) (h : pat <:+: l) :
    pat <:+: pyStrip l := by
  unfold pyStrip
  have h1 : pat <:+: l.dropWhile isSpace := infix_dropWhile pat l hne hns h
  have h2 : pat.reverse <:+: (l.dropWhile isSpace).reverse := List.reverse_infix.mpr h1
  have h3 : pat.reverse <:+: ((l.dropWhile isSpace).reverse).dropWhile isSpace := by
    refine infix_dropWhile _ _ (by simpa using hne) ?_ h2
    intro ch hch
    exact hns ch (List.mem_reverse.mp hch)
  have h4 := List.reverse_infix.mpr h3
  simpa using h4

theorem containsSub_pyStrip (pat l : List Char) (hne : pat ≠ [])
    (hns : ∀ ch ∈ pat, isSpace ch = false) (h : containsSub pat l = true) :
    containsSub pat (pyStrip l) = true := by
  unfold containsSub at h ⊢
  exact (findSub_isSome_iff_occurs _ _).mpr
    (infix_pyStrip pat l hne hns ((findSub_isSome_iff_occurs _ _).mp h))

theorem checkPort_some_eq (e : ScanEnv) (ip x : List Char)
    (h : checkPort e ip = some x) : x = ip := by
  unfold checkPort at h
  cases hc : e.connect ip with
  | ok r =>
    rw [hc] at h
    dsimp only at h
    by_cases hr : r = 0
    · rw [if_pos hr] at h
      exact (Option.some_inj.mp h).symm
    · rw [if_neg hr] at h
      cases h
  | error u =>
    rw [hc] at h
    dsimp only at h
    cases h

theorem filterMap_checkPort_eq_filter (e : ScanEnv) (l : List (List Char)) :
    l.filterMap (checkPort e) = l.filter (fun ip => (checkPort e ip).isSome) := by
  induction l with
  | nil => rfl
  | cons c t ih =>
    cases hc : checkPort e c with
    | none => simp [List.filterMap_cons, List.filter_cons, hc, ih]
    | some x =>
      have hx : x = c := checkPort_some_eq e c x hc
      subst hx
      simp [List.filterMap_cons, List.filter_cons, hc, ih]

theorem containsSub_false_findSub_none (pat t : List Char)
    (hp : containsSub pat t = false) : findSub pat t = none := by
  unfold containsSub at hp
  cases hx : findSub pat t with
  | none => rfl
  | some v =>
    rw [hx] at hp
    cases hp

theorem fallback_core (t : List Char)
    (h3 : ∀ m ∈ actionMarkers, containsSub m t = false)
    (h4 : ("\x7b".data).isPrefixOf t = false) :
    (if firstMarkerPos t < t.length then
      (pyStrip (t.take (firstMarkerPos t)), pyStrip (t.drop (firstMarkerPos t)))
     else if ("\x7b".data).isPrefixOf t || ("do(".data).isPrefixOf t
         || ("finish(".data).isPrefixOf t then
       (([] : List Char), t)
     else (t, ([] : List Char))) = (t, ([] : List Char)) := by
  have hm1 : findSub ("\x7baction=".data) t = none :=
    containsSub_false_findSub_none _ t (h3 _ (by simp [actionMarkers]))
  have hm2 : findSub ("do(".data) t = none :=
    containsSub_false_findSub_none _ t (h3 _ (by simp [actionMarkers]))
  have hm3 : findSub ("finish(".data) t = none :=
    containsSub_false_findSub_none _ t (h3 _ (by simp [actionMarkers]))
  have hpos : firstMarkerPos t = t.length := by
    unfold firstMarkerPos actionMarkers
    dsimp only [List.foldl]
    rw [hm1, hm2, hm3]
  rw [hpos]
  rw [if_neg (lt_irrefl t.length)]
  have hdo : ("do(".data).isPrefixOf t = false := by
    cases hx : ("do(".data).isPrefixOf t with
    | false => rfl
    | true =>
      have hcs := isPrefixOf_containsSub _ t hx
      rw [h3 _ (by simp [actionMarkers])] at hcs
      cases hcs
  have hfin : ("finish(".data).isPrefixOf t = false := by
    cases hx : ("finish(".data).isPrefixOf t with
    | false => rfl
    | true =>
      have hcs := isPrefixOf_containsSub _ t hx
      rw [h3 _ (by simp [actionMarkers])] at hcs
      cases hcs
  rw [h4, hdo, hfin]
  simp

/-! ### Claim theorems: response decoder -/

/-- C3: Decoder priority-1 rule. For every input containing the answer
delimiter, the decoder splits at the first occurrence of the answer tag in
the (trimmed, per the ladder) content: thinking is the text before it with
the think open and close markers stripped, action is the text after it with
the answer close marker stripped, both whitespace-stripped. -/
theorem decoder_answer_delimiter_rule (content : List Char)
    (h : containsSub ansOpen content = true) :
    ∃ i, findSub ansOpen (pyStrip content) = some i ∧
      parseResponse content =
        (pyStrip (pyReplace (pyReplace ((pyStrip content).take i) thinkOpen []) thinkClose []),
         pyStrip (pyReplace ((pyStrip content).drop (i + ansOpen.length)) ansClose [])) := by
  have hc : containsSub ansOpen (pyStrip content) = true :=
    containsSub_pyStrip ansOpen content (by decide) (by decide) h
  unfold containsSub at hc
  cases h1 : findSub ansOpen (pyStrip content) with
  | none =>
    rw [h1] at hc
    cases hc
  | some i =>
    refine ⟨i, rfl, ?_⟩
    unfold parseResponse parseCore
    rw [h1]

/-- Witness for C3 at the spec example: the delimited input decodes to
thinking foo and action do(tap,1,2), and the general rule applies to it. -/
theorem decoder_answer_delimiter_rule_witness :
    containsSub ansOpen exDelimited = true ∧
    parseResponse exDelimited = ("foo".data, "do(tap,1,2)".data) ∧
    (∃ i, findSub ansOpen (pyStrip exDelimited) = some i ∧
      parseResponse exDelimited =
        (pyStrip (pyReplace (pyReplace ((pyStrip exDelimited).take i) thinkOpen []) thinkClose []),
         pyStrip (pyReplace ((pyStrip exDelimited).drop (i + ansOpen.length)) ansClose []))) :=
  ⟨by decide, by decide, decoder_answer_delimiter_rule exDelimited (by decide)⟩

/-- C6: Decoder final fallback. For every trimmed input containing no answer
delimiter, no think open and close pair, none of the action-start tokens
anywhere, and not beginning with the brace opener (the call-style openers
being excluded already by the containment hypotheses), the decoder returns
the whole text as thinking and an empty action. -/
theorem decoder_final_fallback (t : List Char)
    (ht : pyStrip t = t)
    (h1 : containsSub ansOpen t = false)
    (h2 : (containsSub thinkOpen t && containsSub thinkClose t) = false)
    (h3 : ∀ m ∈ actionMarkers, containsSub m t = false)
    (h4 : ("\x7b".data).isPrefixOf t = false) :
    parseResponse t = (t, []) := by
  have hnone : ∀ pat : List Char, containsSub pat t = false → findSub pat t = none := by
    intro pat hp
    unfold containsSub at hp
    cases hx : findSub pat t with
    | none => rfl
    | some v =>
      rw [hx] at hp
      cases hp
  unfold parseResponse
  rw [ht]
  unfold parseCore
  rw [hnone ansOpen h1]
  dsimp only
  cases hto : containsSub thinkOpen t with
  | true =>
    have htc : containsSub thinkClose t = false := by
      rw [hto] at h2
      simpa using h2
    rw [hnone thinkClose htc]
    dsimp only
    exact fallback_core t h3 h4
  | false =>
    cases hfc : findSub thinkClose t with
    | none =>
      dsimp only
      exact fallback_core t h3 h4
    | some j =>
      dsimp only
      exact fallback_core t h3 h4

/-- Witness for C6 at the spec example: a pure-rationale input is returned
entirely as thinking with an empty action. -/
theorem decoder_final_fallback_witness :
    pyStrip exRationale = exRationale ∧
    parseResponse exRationale = (exRationale, []) :=
  ⟨by decide,
   decoder_final_fallback exRationale (by decide) (by decide) (by decide)
     (by intro m hm; fin_cases hm <;> decide) (by decide)⟩

/-- C10: the response decoder is total (a function by construction in this
embedding) and on every input both returned fields carry no leading and no
trailing whitespace character, whichever rule of the ladder applies. -/
theorem decoder_total_and_fields_trimmed (content : List Char) :
    edgeTrimmed (parseResponse content).1 = true ∧
    edgeTrimmed (parseResponse content).2 = true := by
  have hcore : ∀ c : List Char, edgeTrimmed c = true →
      edgeTrimmed (parseCore c).1 = true ∧ edgeTrimmed (parseCore c).2 = true := by
    intro c hc
    unfold parseCore
    cases h1 : findSub ansOpen c with
    | some i =>
      exact ⟨pyStrip_edgeTrimmed _, pyStrip_edgeTrimmed _⟩
    | none =>
      cases hto : containsSub thinkOpen c with
      | true =>
        cases hfc : findSub thinkClose c with
        | some j =>
          exact ⟨pyStrip_edgeTrimmed _, pyStrip_edgeTrimmed _⟩
        | none =>
          dsimp only
          split
          · exact ⟨pyStrip_edgeTrimmed _, pyStrip_edgeTrimmed _⟩
          · split
            · exact ⟨rfl, hc⟩
            · exact ⟨hc, rfl⟩
      | false =>
        cases hfc : findSub thinkClose c with
        | some j =>
          dsimp only
          split
          · exact ⟨pyStrip_edgeTrimmed _, pyStrip_edgeTrimmed _⟩
          · split
            · exact ⟨rfl, hc⟩
            · exact ⟨hc, rfl⟩
        | none =>
          dsimp only
          split
          · exact ⟨pyStrip_edgeTrimmed _, pyStrip_edgeTrimmed _⟩
          · split
            · exact ⟨rfl, hc⟩
            · exact ⟨hc, rfl⟩
  unfold parseResponse
  exact hcore (pyStrip content) (pyStrip_edgeTrimmed content)

/-! ### Claim theorems: discovery engine -/

/-- C1: Fast-path precedence. When the local address is not loopback, the
neighbor-cache query yields at least one candidate with a succeeding probe,
scan_network returns exactly the fast-path candidates whose probe succeeded
and probes no slow-path address: the probed set is the candidate list. -/
theorem scan_fast_path_precedence (e : ScanEnv)
    (hloop : getLocalIp e ≠ "127.0.0.1".data)
    (hsucc : ∃ ip ∈ getArpIps e (getLocalIp e), (checkPort e ip).isSome = true) :
    (scanNetwork e).result =
      (getArpIps e (getLocalIp e)).filter (fun ip => (checkPort e ip).isSome) ∧
    (scanNetwork e).probed = getArpIps e (getLocalIp e) := by
  obtain ⟨x, hx, hxs⟩ := hsucc
  have hAe : (getArpIps e (getLocalIp e)).isEmpty = false := by
    cases hb : (getArpIps e (getLocalIp e)).isEmpty with
    | false => rfl
    | true =>
      rw [List.isEmpty_iff.mp hb] at hx
      cases hx
  have hmem : x ∈ (getArpIps e (getLocalIp e)).filter (fun ip => (checkPort e ip).isSome) :=
    List.mem_filter.mpr ⟨hx, hxs⟩
  have hne : (getArpIps e (getLocalIp e)).filterMap (checkPort e) ≠ [] := by
    rw [filterMap_checkPort_eq_filter]
    exact List.ne_nil_of_mem hmem
  simp only [scanNetwork]
  rw [if_neg hloop, hAe]
  rw [if_neg Bool.false_ne_true]
  rw [if_pos hne]
  exact ⟨filterMap_checkPort_eq_filter e _, rfl⟩

/-- Witness for C1: one cached neighbor, an accepting probe; the scan
returns that neighbor and probes only the candidate list. -/
theorem scan_fast_path_precedence_witness :
    getLocalIp envScanFast ≠ "127.0.0.1".data ∧
    (scanNetwork envScanFast).result = ["192.168.1.3".data] ∧
    (scanNetwork envScanFast).probed = ["192.168.1.3".data] := by
  have h := scan_fast_path_precedence envScanFast (by decide)
    ⟨"192.168.1.3".data, by decide, by decide⟩
  refine ⟨by decide, ?_, ?_⟩
  · rw [h.1]; decide
  · rw [h.2]; decide

/-- C9: Slow-path completeness. When the local address is not loopback and
the neighbor-cache query yields no candidates, scan_network probes exactly
the 254 host addresses of the /24 with last octet 1 through 254 excluding
the local address (the fast path tried nothing), and returns exactly the
probed addresses whose probe succeeds, in probe order. -/
theorem scan_slow_path_completeness (e : ScanEnv)
    (hloop : getLocalIp e ≠ "127.0.0.1".data)
    (harp : getArpIps e (getLocalIp e) = []) :
    (scanNetwork e).probed =
      ((List.range' 1 254).map (hostAddr (subnetPrefix (getLocalIp e)))).filter
        (fun ip => ip != getLocalIp e) ∧
    (scanNetwork e).result =
      (scanNetwork e).probed.filter (fun ip => (checkPort e ip).isSome) := by
  simp only [scanNetwork]
  rw [if_neg hloop, harp]
  constructor
  · rfl
  · exact filterMap_checkPort_eq_filter e _

set_option maxRecDepth 40000 in
/-- Witness for C9 at the spec instance: empty neighbor cache, a probe that
succeeds only for 10.0.0.7; the result is exactly that address. -/
theorem scan_slow_path_completeness_witness :
    getArpIps envSlowOne (getLocalIp envSlowOne) = [] ∧
    (scanNetwork envSlowOne).result = ["10.0.0.7".data] ∧
    (scanNetwork envSlowOne).probed.length = 253 := by
  have h := scan_slow_path_completeness envSlowOne (by decide) (by decide)
  refine ⟨by decide, ?_, by decide⟩
  rw [h.2, h.1]
  decide

/-- C5 counterexample: with local address 10.0.1.1 the neighbor-cache entry
10.0.10.5 is included in the fast-path candidate list although its first
three octets differ from the local ones, refuting the claim that addresses
on a different /24 subnet are never included. -/
theorem arp_filter_not_slash24 :
    ("10.0.10.5".data ∈ getArpIps envArpWide "10.0.1.1".data) ∧
    octets3 "10.0.10.5".data ≠ octets3 "10.0.1.1".data := by
  refine ⟨by decide, by decide⟩

/-- C5 amended: the fast-path candidate list contains exactly those
neighbor-cache addresses whose text starts with the string obtained by
joining the first three octets of the local address with dots (with no
trailing dot, so a textual extension of the third octet also matches),
excluding the local address itself. -/
theorem arp_filter_membership (e : ScanEnv) (found : List (List Char)) (L x : List Char)
    (h : e.arpFound = Except.ok found) :
    x ∈ getArpIps e L ↔
      x ∈ found ∧ (subnetPrefix L).isPrefixOf x = true ∧ x ≠ L := by
  unfold getArpIps
  rw [h]
  simp [List.mem_filter, Bool.and_eq_true, bne_iff_ne, and_assoc]

/-- Witness for C5 amended: a same-prefix neighbor is a candidate. -/
theorem arp_filter_membership_witness :
    "10.0.1.9".data ∈ getArpIps envArpOk "10.0.1.1".data :=
  (arp_filter_membership envArpOk ["10.0.1.9".data] "10.0.1.1".data "10.0.1.9".data
    rfl).mpr ⟨by decide, by decide, by decide⟩

/-- C7: Scan soft failure. For every environment (ports, timeouts and
worker counts are absorbed into the probe oracle): an interface resolution
failure yields the empty result; if no probe succeeds the result is empty;
a probe whose connection attempt raises is treated as closed; a failing
neighbor-cache query behaves as an empty cache; and the outcome of one
probe depends only on its own connection attempt, never on another probe. -/
theorem scan_soft_failure (e : ScanEnv) :
    (e.localIp = Except.error () → (scanNetwork e).result = []) ∧
    ((∀ ip, checkPort e ip = none) → (scanNetwork e).result = []) ∧
    (∀ ip, e.connect ip = Except.error () → checkPort e ip = none) ∧
    (∀ L, e.arpFound = Except.error () → getArpIps e L = []) ∧
    (∀ e2 : ScanEnv, ∀ ip, e2.connect ip = e.connect ip →
      checkPort e2 ip = checkPort e ip) := by
  refine ⟨?_, ?_, ?_, ?_, ?_⟩
  · intro h
    have hl : getLocalIp e = "127.0.0.1".data := by
      unfold getLocalIp
      rw [h]
    simp only [scanNetwork]
    rw [if_pos hl]
  · intro h
    have hfm : ∀ l : List (List Char), l.filterMap (checkPort e) = [] := by
      intro l
      rw [List.filterMap_eq_nil_iff]
      exact fun a _ => h a
    simp only [scanNetwork]
    by_cases hl : getLocalIp e = "127.0.0.1".data
    · rw [if_pos hl]
    · rw [if_neg hl]
      have hff : (if (getArpIps e (getLocalIp e)).isEmpty = true then ([] : List (List Char))
          else (getArpIps e (getLocalIp e)).filterMap (checkPort e)) = [] := by
        split
        · rfl
        · exact hfm _
      rw [hff]
      rw [if_neg (fun hx => hx rfl)]
      exact hfm _
  · intro ip h
    unfold checkPort
    rw [h]
  · intro L h
    unfold getArpIps
    rw [h]
  · intro e2 ip h
    unfold checkPort
    rw [h]

/-- Witness for C7: in the environment where every platform call raises,
the scan still returns the empty result, a probe returns none, and the
neighbor-cache query returns no candidates. -/
theorem scan_soft_failure_witness :
    (scanNetwork envAllFail).result = [] ∧
    checkPort envAllFail "1.2.3.4".data = none ∧
    getArpIps envAllFail "10.0.0.1".data = [] :=
  ⟨(scan_soft_failure envAllFail).1 rfl,
   (scan_soft_failure envAllFail).2.2.1 _ rfl,
   (scan_soft_failure envAllFail).2.2.2.1 _ rfl⟩

/-! ### Claim theorems: orchestration session -/

/-- C2: Session step ordering and finish. For a step executor returning
finished false twice and then finished true, the session trace is exactly
the info acknowledgement, three step calls each immediately followed by the
step event carrying its result in order, and one final finish event
carrying the last message (the default completion text when it is missing
or empty); nothing follows it, and each call is emitted before the next
call starts. -/
theorem session_step_ordering (r0 r1 r2 : StepResult)
    (rest : List (Except String StepResult))
    (h0 : r0.finished = false) (h1 : r1.finished = false) (h2 : r2.finished = true) :
    sessionTrace (Except.ok r0 :: Except.ok r1 :: Except.ok r2 :: rest) =
      [SessAction.emit (Event.info "Starting task..."),
       SessAction.callStep true, SessAction.emit (Event.step r0),
       SessAction.callStep false, SessAction.emit (Event.step r1),
       SessAction.callStep false, SessAction.emit (Event.step r2),
       SessAction.emit (Event.finish (finishMsg r2))] := by
  simp [sessionTrace, stepLoop, h0, h1, h2]

/-- Witness for C2: a concrete three-step session emits three step events
in order and one finish event carrying the final message. -/
theorem session_step_ordering_witness :
    sessionTrace [Except.ok ⟨false, none⟩, Except.ok ⟨false, none⟩,
        Except.ok ⟨true, some "all done"⟩] =
      [SessAction.emit (Event.info "Starting task..."),
       SessAction.callStep true, SessAction.emit (Event.step ⟨false, none⟩),
       SessAction.callStep false, SessAction.emit (Event.step ⟨false, none⟩),
       SessAction.callStep false, SessAction.emit (Event.step ⟨true, some "all done"⟩),
       SessAction.emit (Event.finish "all done")] := by
  have h := session_step_ordering ⟨false, none⟩ ⟨false, none⟩ ⟨true, some "all done"⟩
    [] rfl rfl rfl
  simpa [finishMsg] using h

/-- C8: Session error short-circuit. For a step executor whose first call
returns an unfinished result and whose second call raises, the session
trace is exactly the info acknowledgement, one step event, and then one
error event carrying the failure text; no further step or finish event
follows. -/
theorem session_error_short_circuit (r0 : StepResult) (msg : String)
    (rest : List (Except String StepResult)) (h0 : r0.finished = false) :
    sessionTrace (Except.ok r0 :: Except.error msg :: rest) =
      [SessAction.emit (Event.info "Starting task..."),
       SessAction.callStep true, SessAction.emit (Event.step r0),
       SessAction.callStep false, SessAction.emit (Event.error msg)] := by
  simp [sessionTrace, stepLoop, h0]

/-- Witness for C8: a concrete session whose second step raises emits one
step event then one error event and nothing else. -/
theorem session_error_short_circuit_witness :
    sessionTrace [Except.ok ⟨false, none⟩, Except.error "device lost"] =
      [SessAction.emit (Event.info "Starting task..."),
       SessAction.callStep true, SessAction.emit (Event.step ⟨false, none⟩),
       SessAction.callStep false, SessAction.emit (Event.error "device lost")] :=
  session_error_short_circuit ⟨false, none⟩ "device lost" [] rfl

/-- C4 failing input: on a connection whose first session raises at its
first step and that then receives a second task-start message, the
web_server code emits the error event and then evaluates the unimported
traceback module, raising NameError and killing the connection handler:
the second task never produces any event, although the claim requires the
new session to be processed normally after the Errored terminal state. -/
theorem connection_dies_after_errored_session :
    connTrace 0 [errScript, okScript] =
      [(0, SessAction.emit (Event.info "Starting task...")),
       (0, SessAction.callStep true),
       (0, SessAction.emit (Event.error "boom"))] ∧
    (∀ p ∈ connTrace 0 [errScript, okScript], p.1 = 0) ∧
    sessionTrace okScript ≠ [] := by
  refine ⟨by decide, by decide, by decide⟩
